import Mathlib

/-
  Verification development for the solar5d repository.

  Shallow embedding of the camera-choreography subsystem, the orbital tick,
  the palm-gesture thresholding, the voice-session state machine, the
  object-tracking camera module, the logarithmic scaling helper and the
  geocode API route.  JavaScript floating-point numbers are modelled as
  real numbers; JavaScript Map objects as functions into Option.
-/

namespace Solar5d

/-- Three-component vector, modelling both THREE.Vector3 and Cesium.Cartesian3. -/
@[ext]
structure Vec3 where
  x : ℝ
  y : ℝ
  z : ℝ

noncomputable instance : Sub Vec3 := ⟨fun a b => ⟨a.x - b.x, a.y - b.y, a.z - b.z⟩⟩

noncomputable instance : Add Vec3 := ⟨fun a b => ⟨a.x + b.x, a.y + b.y, a.z + b.z⟩⟩

noncomputable instance : SMul ℝ Vec3 := ⟨fun c v => ⟨c * v.x, c * v.y, c * v.z⟩⟩

theorem Vec3.sub_def (a b : Vec3) : a - b = ⟨a.x - b.x, a.y - b.y, a.z - b.z⟩ := rfl

theorem Vec3.add_def (a b : Vec3) : a + b = ⟨a.x + b.x, a.y + b.y, a.z + b.z⟩ := rfl

theorem Vec3.smul_def (c : ℝ) (v : Vec3) : c • v = ⟨c * v.x, c * v.y, c * v.z⟩ := rfl

/-- Euclidean length of a vector (THREE.Vector3.length, Cesium.Cartesian3.magnitude). -/
noncomputable def norm3 (v : Vec3) : ℝ := Real.sqrt (v.x ^ 2 + v.y ^ 2 + v.z ^ 2)

/-- Normalization by dividing each component by the length
    (THREE.Vector3.normalize, Cesium.Cartesian3.normalize). -/
noncomputable def normalize3 (v : Vec3) : Vec3 :=
  ⟨v.x / norm3 v, v.y / norm3 v, v.z / norm3 v⟩

/-- Euclidean distance between two points (THREE.Vector3.distanceTo). -/
noncomputable def dist3 (p q : Vec3) : ℝ :=
  Real.sqrt ((p.x - q.x) ^ 2 + (p.y - q.y) ^ 2 + (p.z - q.z) ^ 2)

/-- Math.hypot on three arguments. -/
noncomputable def hypot3 (dx dy dz : ℝ) : ℝ := Real.sqrt (dx ^ 2 + dy ^ 2 + dz ^ 2)

/-- Scalar linear interpolation, Cesium.Math.lerp: (1 - t) * p + t * q. -/
noncomputable def lerp (p q t : ℝ) : ℝ := (1 - t) * p + t * q

/-- Vector linear interpolation, Cesium.Cartesian3.lerp: the sum of the end
    scaled by t and the start scaled by 1 - t. -/
noncomputable def lerp3 (v w : Vec3) (t : ℝ) : Vec3 := (1 - t) • v + t • w

/-- Vector linear interpolation, THREE.Vector3.lerp: adds (w - v) * t to v
    componentwise. -/
noncomputable def v3lerp (v w : Vec3) (t : ℝ) : Vec3 := v + t • (w - v)

/-- Degrees to radians, Cesium.Math.toRadians and THREE.MathUtils.degToRad. -/
noncomputable def toRadians (degrees : ℝ) : ℝ := degrees * Real.pi / 180

/-! ### src/lib/cesium/cameraAnimations.ts -/

/-- Embedding of easeInOutCubic from src/lib/cesium/cameraAnimations.ts lines 7 to 9:
    t less than 0.5 gives 4*t*t*t, otherwise 1 - Math.pow(-2*t+2, 3)/2. -/
noncomputable def easeInOutCubic (t : ℝ) : ℝ :=
  if t < 0.5 then 4 * t * t * t else 1 - (-2 * t + 2) ^ 3 / 2

theorem easeInOutCubic_left (t : ℝ) (h : t < 0.5) :
    easeInOutCubic t = 4 * t * t * t := if_pos h

theorem easeInOutCubic_right (t : ℝ) (h : ¬ t < 0.5) :
    easeInOutCubic t = 1 - (-2 * t + 2) ^ 3 / 2 := if_neg h

theorem easeInOutCubic_monotone : Monotone easeInOutCubic := by
  intro a b hab
  unfold easeInOutCubic
  split_ifs with ha hb hb
  · nlinarith [sq_nonneg (a + b), sq_nonneg a, sq_nonneg b, sq_nonneg (a - b)]
  · push_neg at hb
    have h1 : 4 * a * a * a ≤ 0.5 := by
      nlinarith [mul_nonneg (by linarith : (0:ℝ) ≤ 0.5 - a) (sq_nonneg (a + 0.25))]
    have h2 : (0.5 : ℝ) ≤ 1 - (-2 * b + 2) ^ 3 / 2 := by
      nlinarith [mul_nonneg (by linarith : (0:ℝ) ≤ 1 - (-2 * b + 2))
        (sq_nonneg ((-2 * b + 2) + 0.5))]
    linarith
  · push_neg at hb
    linarith
  · push_neg at ha hb
    have key : (-2 * b + 2) ^ 3 ≤ (-2 * a + 2) ^ 3 := by
      nlinarith [mul_nonneg (by linarith : (0:ℝ) ≤ (-2 * a + 2) - (-2 * b + 2))
        (sq_nonneg ((-2 * a + 2) + (-2 * b + 2))),
        mul_nonneg (by linarith : (0:ℝ) ≤ (-2 * a + 2) - (-2 * b + 2))
        (sq_nonneg ((-2 * a + 2) - (-2 * b + 2)))]
    linarith

theorem easeInOutCubic_continuous : Continuous easeInOutCubic := by
  have h : easeInOutCubic =
      fun t : ℝ => if (0.5 : ℝ) ≤ t then 1 - (-2 * t + 2) ^ 3 / 2 else 4 * t * t * t := by
    funext t
    unfold easeInOutCubic
    rcases lt_or_le t 0.5 with h | h
    · rw [if_pos h, if_neg (not_le.mpr h)]
    · rw [if_neg (not_lt.mpr h), if_pos h]
  rw [h]
  apply Continuous.if_le
  · continuity
  · continuity
  · exact continuous_const
  · exact continuous_id
  · intro t ht
    rw [← ht]
    norm_num

/-- C2: easeInOutCubic equals the cubic ease-in-out reference definition
    (4*t^3 below one half, 1 - (2-2t)^3/2 above), maps 0 to 0, 1 to 1,
    0.5 to 0.5, and is monotonically non-decreasing and continuous on the
    unit interval. -/
theorem easeInOutCubic_spec :
    (∀ t : ℝ, t < 0.5 → easeInOutCubic t = 4 * t ^ 3) ∧
    (∀ t : ℝ, ¬ t < 0.5 → easeInOutCubic t = 1 - (2 - 2 * t) ^ 3 / 2) ∧
    easeInOutCubic 0 = 0 ∧ easeInOutCubic 1 = 1 ∧
    easeInOutCubic 0.5 = 0.5 ∧
    MonotoneOn easeInOutCubic (Set.Icc 0 1) ∧
    ContinuousOn easeInOutCubic (Set.Icc 0 1) := by
  refine ⟨fun t ht => ?_, fun t ht => ?_, ?_, ?_, ?_, ?_, ?_⟩
  · rw [easeInOutCubic_left t ht]; ring
  · rw [easeInOutCubic_right t ht]; ring
  · rw [easeInOutCubic_left 0 (by norm_num)]; norm_num
  · rw [easeInOutCubic_right 1 (by norm_num)]; norm_num
  · rw [easeInOutCubic_right 0.5 (by norm_num)]; norm_num
  · exact easeInOutCubic_monotone.monotoneOn _
  · exact easeInOutCubic_continuous.continuousOn

/-- Witness for C2 at the concrete input 0.25. -/
theorem easeInOutCubic_spec_witness :
    (0.25 : ℝ) < 0.5 ∧ easeInOutCubic 0.25 = 4 * (0.25 : ℝ) ^ 3 :=
  ⟨by norm_num, easeInOutCubic_spec.1 0.25 (by norm_num)⟩

/-! ### Constants from src/lib/cesium/cesiumConfig.ts -/

namespace CAMERA_ALTITUDES

/-- 20,000 km full Earth view altitude. -/
noncomputable def SPACE_OVERVIEW : ℝ := 20000000

/-- 150 km search-result altitude. -/
noncomputable def SEARCH_RESULT : ℝ := 150000

end CAMERA_ALTITUDES

namespace CAMERA_ANGLES

/-- Near top-down pitch in degrees. -/
noncomputable def LOOK_DOWN : ℝ := -75

/-- Oblique pitch in degrees. -/
noncomputable def HORIZON_VIEW : ℝ := -25

end CAMERA_ANGLES

namespace CAMERA_OFFSET

/-- Landing camera pull-back distance in meters. -/
noncomputable def LANDING_DISTANCE : ℝ := 200000

/-- Landing bearing from target in degrees. -/
noncomputable def LANDING_BEARING : ℝ := 180

end CAMERA_OFFSET

/-- Per-frame camera state produced by the smoothFlyTo animation loop:
    the Cesium camera position and the pitch passed to setView. -/
structure CameraFrame where
  position : Vec3
  pitch : ℝ

/-- Embedding of the animate body of smoothFlyTo,
    src/lib/cesium/cameraAnimations.ts lines 45 to 105, as a function of the
    clamped progress t.  The geodetic-to-Cartesian conversion
    Cesium.Cartesian3.fromDegrees is kept abstract as the parameter
    fromDegrees (longitude, latitude, height to Cartesian). -/
noncomputable def smoothFlyToFrame (fromDegrees : ℝ → ℝ → ℝ → Vec3)
    (startPosition : Vec3) (startPitch currentLon currentLat : ℝ)
    (longitude latitude height : ℝ) (t : ℝ) : CameraFrame :=
  let highAltitudeStart := fromDegrees currentLon currentLat CAMERA_ALTITUDES.SPACE_OVERVIEW
  let highAltitudeEnd := fromDegrees longitude latitude CAMERA_ALTITUDES.SPACE_OVERVIEW
  let offsetBearing := toRadians CAMERA_OFFSET.LANDING_BEARING
  let offsetLongitude := longitude +
    (CAMERA_OFFSET.LANDING_DISTANCE / 111320) * Real.sin offsetBearing /
      Real.cos (toRadians latitude)
  let offsetLatitude := latitude +
    (CAMERA_OFFSET.LANDING_DISTANCE / 111320) * Real.cos offsetBearing
  let finalCameraPosition := fromDegrees offsetLongitude offsetLatitude height
  if t < 0.33 then
    let phase1T := easeInOutCubic (t / 0.33)
    { position := lerp3 startPosition highAltitudeStart phase1T
      pitch := lerp startPitch (toRadians CAMERA_ANGLES.LOOK_DOWN) phase1T }
  else if t < 0.67 then
    let phase2T := easeInOutCubic ((t - 0.33) / 0.34)
    let interpLon := lerp currentLon longitude phase2T
    let interpLat := lerp currentLat latitude phase2T
    { position := fromDegrees interpLon interpLat CAMERA_ALTITUDES.SPACE_OVERVIEW
      pitch := toRadians CAMERA_ANGLES.LOOK_DOWN }
  else
    let phase3T := (t - 0.67) / 0.33
    let easedPhase3T := easeInOutCubic phase3T
    let pitchProgress := if phase3T < 0.4 then 0 else easeInOutCubic ((phase3T - 0.4) / 0.6)
    { position := lerp3 highAltitudeEnd finalCameraPosition easedPhase3T
      pitch := lerp (toRadians CAMERA_ANGLES.LOOK_DOWN) (toRadians CAMERA_ANGLES.HORIZON_VIEW)
        pitchProgress }

/-- Transition phases of the smoothFlyTo trajectory. -/
inductive FlyPhase where
  | up
  | transfer
  | down
  deriving DecidableEq

/-- Phase selected by the branch structure of smoothFlyToFrame at progress t. -/
noncomputable def smoothFlyToPhase (t : ℝ) : FlyPhase :=
  if t < 0.33 then .up else if t < 0.67 then .transfer else .down

/-- All arguments that the animate body of smoothFlyTo passes to
    easeInOutCubic at progress t: the normalized phase progress, and in the
    descent phase also the pitch sub-progress once phase3T reaches 0.4. -/
noncomputable def smoothFlyToEaseArgs (t : ℝ) : List ℝ :=
  if t < 0.33 then [t / 0.33]
  else if t < 0.67 then [(t - 0.33) / 0.34]
  else
    let phase3T := (t - 0.67) / 0.33
    if phase3T < 0.4 then [phase3T] else [phase3T, (phase3T - 0.4) / 0.6]

/-- C3: for every clamped progress t in the unit interval exactly one of the
    three phase branches applies (UP below 0.33, TRANSFER from 0.33 up to
    0.67, DOWN from 0.67), the phase duration ratios 0.33, 0.34 and 0.33 sum
    to 1, and every argument passed to easeInOutCubic, including the pitch
    sub-progress, lies in the unit interval. -/
theorem smoothFlyTo_phase_safety (t : ℝ) (h0 : 0 ≤ t) (h1 : t ≤ 1) :
    (smoothFlyToPhase t = .up ↔ t < 0.33) ∧
    (smoothFlyToPhase t = .transfer ↔ 0.33 ≤ t ∧ t < 0.67) ∧
    (smoothFlyToPhase t = .down ↔ 0.67 ≤ t) ∧
    (0.33 + 0.34 + 0.33 : ℝ) = 1 ∧
    (∀ u ∈ smoothFlyToEaseArgs t, 0 ≤ u ∧ u ≤ 1) := by
  unfold smoothFlyToPhase smoothFlyToEaseArgs
  rcases lt_or_le t 0.33 with hA | hA
  · rw [if_pos hA, if_pos hA]
    refine ⟨⟨fun _ => hA, fun _ => rfl⟩, ?_, ?_, by norm_num, ?_⟩
    · constructor
      · intro h
        exact FlyPhase.noConfusion h
      · rintro ⟨h, -⟩
        exact absurd h (not_le.mpr hA)
    · constructor
      · intro h
        exact FlyPhase.noConfusion h
      · intro h
        linarith
    · intro u hu
      simp only [List.mem_singleton] at hu
      subst hu
      constructor
      · positivity
      · rw [div_le_one (by norm_num)]
        linarith
  · rw [if_neg (not_lt.mpr hA), if_neg (not_lt.mpr hA)]
    rcases lt_or_le t 0.67 with hB | hB
    · rw [if_pos hB, if_pos hB]
      refine ⟨?_, ⟨fun _ => ⟨hA, hB⟩, fun _ => rfl⟩, ?_, by norm_num, ?_⟩
      · constructor
        · intro h
          exact FlyPhase.noConfusion h
        · intro h
          exact absurd h (not_lt.mpr hA)
      · constructor
        · intro h
          exact FlyPhase.noConfusion h
        · intro h
          linarith
      · intro u hu
        simp only [List.mem_singleton] at hu
        subst hu
        constructor
        · apply div_nonneg (by linarith) (by norm_num)
        · rw [div_le_one (by norm_num)]
          linarith
    · rw [if_neg (not_lt.mpr hB), if_neg (not_lt.mpr hB)]
      have hp0 : 0 ≤ (t - 0.67) / 0.33 := div_nonneg (by linarith) (by norm_num)
      have hp1 : (t - 0.67) / 0.33 ≤ 1 := by
        rw [div_le_one (by norm_num)]
        linarith
      refine ⟨?_, ?_, ⟨fun _ => hB, fun _ => rfl⟩, by norm_num, ?_⟩
      · constructor
        · intro h
          exact FlyPhase.noConfusion h
        · intro h
          linarith
      · constructor
        · intro h
          exact FlyPhase.noConfusion h
        · rintro ⟨-, h⟩
          linarith
      · intro u hu
        simp only at hu
        split_ifs at hu with hc
        · simp only [List.mem_singleton] at hu
          subst hu
          exact ⟨hp0, hp1⟩
        · push_neg at hc
          rcases List.mem_pair.mp hu with hu | hu <;> subst hu
          · exact ⟨hp0, hp1⟩
          · constructor
            · apply div_nonneg (by linarith) (by norm_num)
            · rw [div_le_one (by norm_num)]
              linarith

/-- Witness for C3 at the concrete progress 0.5. -/
theorem smoothFlyTo_phase_safety_witness :
    (0 : ℝ) ≤ 0.5 ∧ (0.5 : ℝ) ≤ 1 ∧
      (smoothFlyToPhase 0.5 = .transfer ↔ (0.33 : ℝ) ≤ 0.5 ∧ (0.5 : ℝ) < 0.67) :=
  ⟨by norm_num, by norm_num, (smoothFlyTo_phase_safety 0.5 (by norm_num) (by norm_num)).2.1⟩

/-- C4: during the whole TRANSFER phase the frame produced by smoothFlyTo has
    its geodetic height pinned to CAMERA_ALTITUDES.SPACE_OVERVIEW (20,000,000
    meters) and its pitch pinned to CAMERA_ANGLES.LOOK_DOWN (-75 degrees) in
    radians, while longitude and latitude are the eased interpolants between
    the start and target coordinates. -/
theorem smoothFlyTo_transfer_invariant (fromDegrees : ℝ → ℝ → ℝ → Vec3)
    (startPosition : Vec3) (startPitch currentLon currentLat : ℝ)
    (longitude latitude height : ℝ) (t : ℝ) (hlo : 0.33 ≤ t) (hhi : t < 0.67) :
    smoothFlyToFrame fromDegrees startPosition startPitch currentLon currentLat
        longitude latitude height t =
      { position := fromDegrees
          (lerp currentLon longitude (easeInOutCubic ((t - 0.33) / 0.34)))
          (lerp currentLat latitude (easeInOutCubic ((t - 0.33) / 0.34)))
          CAMERA_ALTITUDES.SPACE_OVERVIEW
        pitch := toRadians CAMERA_ANGLES.LOOK_DOWN } ∧
    CAMERA_ALTITUDES.SPACE_OVERVIEW = 20000000 ∧
    CAMERA_ANGLES.LOOK_DOWN = -75 := by
  refine ⟨?_, rfl, rfl⟩
  unfold smoothFlyToFrame
  rw [if_neg (not_lt.mpr hlo), if_pos hhi]

/-- Witness for C4 at the concrete progress 0.5. -/
theorem smoothFlyTo_transfer_invariant_witness :
    (0.33 : ℝ) ≤ 0.5 ∧ (0.5 : ℝ) < 0.67 ∧
      smoothFlyToFrame (fun a b c => ⟨a, b, c⟩) ⟨0, 0, 0⟩ 0 10 20 30 40 150000 0.5 =
        { position := ⟨lerp 10 30 (easeInOutCubic ((0.5 - 0.33) / 0.34)),
            lerp 20 40 (easeInOutCubic ((0.5 - 0.33) / 0.34)),
            CAMERA_ALTITUDES.SPACE_OVERVIEW⟩
          pitch := toRadians CAMERA_ANGLES.LOOK_DOWN } :=
  ⟨by norm_num, by norm_num,
    (smoothFlyTo_transfer_invariant (fun a b c => ⟨a, b, c⟩) ⟨0, 0, 0⟩ 0 10 20 30 40 150000 0.5
      (by norm_num) (by norm_num)).1⟩

/-! ### src/unnamed solar system tick: updateSolarSystem -/

/-- Celestial body record, the Body interface of the solar system module. -/
structure Body where
  name : String
  radius_km : ℝ
  distance_from_sun_million_km : ℝ
  rotation_speed_kmh : ℝ
  orbital_speed_kms : ℝ
  temperature_k : ℝ
  axis_angle_deg : Option ℝ

/-- THREE.Vector3.applyAxisAngle specialized to the global up axis (0, 1, 0):
    right-handed rotation by the given angle about the Y axis. -/
noncomputable def applyAxisAngleY (angle : ℝ) (v : Vec3) : Vec3 :=
  ⟨v.x * Real.cos angle + v.z * Real.sin angle,
   v.y,
   -v.x * Real.sin angle + v.z * Real.cos angle⟩

/-- Embedding of the orbital branch of updateSolarSystem (lines 49 to 54 of
    the tick module): when the orbit is not paused and the body has positive
    distance from the sun, the position is rotated about the global Y axis by
    (orbital_speed_kms / (distance_from_sun_million_km * 1e6)) * deltaSec. -/
noncomputable def orbitStep (body : Body) (pos : Vec3) (deltaSec : ℝ)
    (orbitPaused : Bool) : Vec3 :=
  if orbitPaused = false ∧ body.distance_from_sun_million_km > 0 then
    applyAxisAngleY (body.orbital_speed_kms / (body.distance_from_sun_million_km * 1e6)
      * deltaSec) pos
  else pos

/-- C5: the orbital step rotates the position about the global Y axis by the
    stated angle; this rotation preserves the distance from the sun at the
    origin and the y coordinate; a body is not orbited when orbitPaused holds
    or its distance from the sun is zero, and the sun stays at the origin. -/
theorem updateSolarSystem_orbit_spec :
    (∀ b p dt, orbitStep b p dt true = p) ∧
    (∀ b p dt paused, b.distance_from_sun_million_km = 0 → orbitStep b p dt paused = p) ∧
    (∀ b p dt, 0 < b.distance_from_sun_million_km →
      orbitStep b p dt false =
        applyAxisAngleY (b.orbital_speed_kms / (b.distance_from_sun_million_km * 1e6) * dt) p) ∧
    (∀ angle p, (applyAxisAngleY angle p).y = p.y ∧
      norm3 (applyAxisAngleY angle p) = norm3 p) ∧
    (∀ b dt paused, orbitStep b ⟨0, 0, 0⟩ dt paused = ⟨0, 0, 0⟩) := by
  refine ⟨?_, ?_, ?_, ?_, ?_⟩
  · intro b p dt
    unfold orbitStep
    rw [if_neg]
    rintro ⟨h, -⟩
    exact Bool.noConfusion h
  · intro b p dt paused h
    unfold orbitStep
    rw [if_neg]
    rintro ⟨-, hgt⟩
    rw [h] at hgt
    exact lt_irrefl 0 hgt
  · intro b p dt h
    unfold orbitStep
    rw [if_pos ⟨rfl, h⟩]
  · intro angle p
    refine ⟨rfl, ?_⟩
    unfold norm3 applyAxisAngleY
    dsimp only
    congr 1
    linear_combination (p.x ^ 2 + p.z ^ 2) * Real.sin_sq_add_cos_sq angle
  · intro b dt paused
    unfold orbitStep applyAxisAngleY
    split_ifs <;> simp

/-- Witness for C5: a paused body and a zero-distance body stay in place. -/
theorem updateSolarSystem_orbit_spec_witness :
    (Body.mk (String.mk []) 1 0 1 1 1 none).distance_from_sun_million_km = 0 ∧
      orbitStep (Body.mk (String.mk []) 1 0 1 1 1 none) ⟨3, 4, 5⟩ 2 false = ⟨3, 4, 5⟩ :=
  ⟨rfl, updateSolarSystem_orbit_spec.2.1 (Body.mk (String.mk []) 1 0 1 1 1 none) ⟨3, 4, 5⟩ 2
    false rfl⟩

/-! ### src/hooks/usePalmPause.ts -/

/-- Default threshold for palm pause detection. -/
noncomputable def PALM_PAUSE_THRESHOLD : ℝ := 0.35

/-- Wrist landmark: first entry of the hand landmark array. -/
def wrist (landmarks : ℕ → Vec3) : Vec3 := landmarks 0

/-- Remaining landmarks after destructuring the wrist off the front. -/
def restLandmarks (landmarks : ℕ → Vec3) (i : ℕ) : Vec3 := landmarks (i + 1)

/-- Fingertip selection from usePalmPause: indices 3, 7, 11, 15, 19 of the
    rest array. -/
def tips (landmarks : ℕ → Vec3) : List Vec3 :=
  [restLandmarks landmarks 3, restLandmarks landmarks 7, restLandmarks landmarks 11,
   restLandmarks landmarks 15, restLandmarks landmarks 19]

/-- Average wrist-to-fingertip distance computed by the onResults callback of
    usePalmPause: reduce of Math.hypot over the tips, divided by the number
    of tips. -/
noncomputable def avgDist (landmarks : ℕ → Vec3) : ℝ :=
  ((tips landmarks).foldl
    (fun sum t => sum + hypot3 (t.x - (wrist landmarks).x) (t.y - (wrist landmarks).y)
      (t.z - (wrist landmarks).z)) 0) / ((tips landmarks).length : ℝ)

/-- Pause state handed to the usePalmPause callback: the reported distance is
    strictly below the threshold. -/
noncomputable def reportedPaused (landmarks : ℕ → Vec3) (threshold : ℝ) : Prop :=
  avgDist landmarks < threshold

theorem hypot3_eq_dist3 (p q : Vec3) :
    hypot3 (q.x - p.x) (q.y - p.y) (q.z - p.z) = dist3 p q := by
  unfold hypot3 dist3
  congr 1
  ring

/-- C6: the distance reported by usePalmPause is the arithmetic mean of the
    five Euclidean wrist-to-fingertip distances (landmarks 4, 8, 12, 16 and
    20 against the wrist landmark 0), the callback receives true exactly when
    that mean is strictly below the threshold, and the default threshold is
    0.35. -/
theorem usePalmPause_spec (landmarks : ℕ → Vec3) (threshold : ℝ) :
    avgDist landmarks =
      (dist3 (landmarks 0) (landmarks 4) + dist3 (landmarks 0) (landmarks 8) +
        dist3 (landmarks 0) (landmarks 12) + dist3 (landmarks 0) (landmarks 16) +
        dist3 (landmarks 0) (landmarks 20)) / 5 ∧
    (reportedPaused landmarks threshold ↔ avgDist landmarks < threshold) ∧
    PALM_PAUSE_THRESHOLD = 0.35 := by
  refine ⟨?_, Iff.rfl, rfl⟩
  unfold avgDist tips restLandmarks wrist
  simp only [List.foldl_cons, List.foldl_nil, List.length_cons, List.length_nil,
    hypot3_eq_dist3]
  norm_num

/-! ### src/lib/utils/math.ts -/

/-- Embedding of makeLogScale: maps a value through base-10 logarithms of the
    domain onto a visual span and offset. -/
noncomputable def makeLogScale (domainMin domainMax : ℝ) : ℝ → ℝ → ℝ → ℝ :=
  fun value span offset =>
    let logMin := Real.logb 10 domainMin
    let logMax := Real.logb 10 domainMax
    let logVal := Real.logb 10 value
    offset + ((logVal - logMin) / (logMax - logMin)) * span

/-- C9: for a domain with 0 < domainMin < domainMax the scale maps domainMin
    to the offset and domainMax to offset + span, and for positive span it is
    strictly increasing in the value on the positive reals. -/
theorem makeLogScale_spec (domainMin domainMax : ℝ)
    (h0 : 0 < domainMin) (hlt : domainMin < domainMax) :
    (∀ span offset, makeLogScale domainMin domainMax domainMin span offset = offset) ∧
    (∀ span offset, makeLogScale domainMin domainMax domainMax span offset = offset + span) ∧
    (∀ span offset v w, 0 < span → 0 < v → v < w →
      makeLogScale domainMin domainMax v span offset <
        makeLogScale domainMin domainMax w span offset) := by
  have hb : (1 : ℝ) < 10 := by norm_num
  have hdenom : 0 < Real.logb 10 domainMax - Real.logb 10 domainMin := by
    have := Real.logb_lt_logb hb h0 hlt
    linarith
  refine ⟨?_, ?_, ?_⟩
  · intro span offset
    unfold makeLogScale
    simp
  · intro span offset
    show offset + (Real.logb 10 domainMax - Real.logb 10 domainMin) /
        (Real.logb 10 domainMax - Real.logb 10 domainMin) * span = offset + span
    rw [div_self (ne_of_gt hdenom)]
    ring
  · intro span offset v w hspan hv hvw
    have hlog : Real.logb 10 v < Real.logb 10 w := Real.logb_lt_logb hb hv hvw
    have hsub : Real.logb 10 v - Real.logb 10 domainMin <
        Real.logb 10 w - Real.logb 10 domainMin := by linarith
    have hfrac : (Real.logb 10 v - Real.logb 10 domainMin) /
        (Real.logb 10 domainMax - Real.logb 10 domainMin) <
        (Real.logb 10 w - Real.logb 10 domainMin) /
        (Real.logb 10 domainMax - Real.logb 10 domainMin) :=
      (div_lt_div_iff_of_pos_right hdenom).mpr hsub
    have hmul := mul_lt_mul_of_pos_right hfrac hspan
    show offset + (Real.logb 10 v - Real.logb 10 domainMin) /
        (Real.logb 10 domainMax - Real.logb 10 domainMin) * span <
      offset + (Real.logb 10 w - Real.logb 10 domainMin) /
        (Real.logb 10 domainMax - Real.logb 10 domainMin) * span
    linarith

/-- Witness for C9 on the concrete domain 1 to 10. -/
theorem makeLogScale_spec_witness :
    (0 : ℝ) < 1 ∧ (1 : ℝ) < 10 ∧ makeLogScale 1 10 1 2 5 = 5 :=
  ⟨by norm_num, by norm_num, (makeLogScale_spec 1 10 (by norm_num) (by norm_num)).1 2 5⟩

/-! ### src/unnamed VoiceService -/

/-- Connection state of the VoiceService class.  Resources held through the
    WebRTC session are modelled by Option Unit: some means the field holds an
    object, none means it is null. -/
structure VoiceState where
  peerConnection : Option Unit
  dataChannel : Option Unit
  audioElement : Option Unit
  mediaStream : Option Unit
  isRecording : Bool
  hardStopTimeout : Option Unit

/-- Embedding of VoiceService.stopRecording: early return when isRecording is
    false, otherwise all resources are released and every field is reset in
    the finally block. -/
def stopRecording (s : VoiceState) : VoiceState :=
  if s.isRecording = false then s
  else
    { peerConnection := none, dataChannel := none, audioElement := none,
      mediaStream := none, isRecording := false, hardStopTimeout := none }

/-- Points at which the asynchronous body of startRecording can fail: the
    getUserMedia request or the offer fetch can reject, everything else is
    synchronous construction. -/
inductive StartOutcome where
  | success
  | getUserMediaFails
  | fetchFails

/-- Embedding of VoiceService.startRecording: early return when isRecording
    is already true; on success all resources are created and isRecording
    becomes true with a hard-stop timeout scheduled; on a failure the catch
    block calls stopRecording on the partially built state (whose isRecording
    flag is still false). -/
def startRecording (s : VoiceState) (outcome : StartOutcome) : VoiceState :=
  if s.isRecording then s
  else
    match outcome with
    | .success =>
        { peerConnection := some (), dataChannel := some (), audioElement := some (),
          mediaStream := some (), isRecording := true, hardStopTimeout := some () }
    | .getUserMediaFails =>
        stopRecording { s with peerConnection := some (), audioElement := some () }
    | .fetchFails =>
        stopRecording { s with
          peerConnection := some (), audioElement := some (),
          mediaStream := some (), dataChannel := some () }

/-- C7: startRecording is a no-op while a session is recording, stopRecording
    is a no-op when no session is active, and a completed stopRecording
    leaves dataChannel, mediaStream, peerConnection and audioElement null
    with isRecording false. -/
theorem voiceService_single_session :
    (∀ s outcome, s.isRecording = true → startRecording s outcome = s) ∧
    (∀ s, s.isRecording = false → stopRecording s = s) ∧
    (∀ s, s.isRecording = true →
      (stopRecording s).dataChannel = none ∧ (stopRecording s).mediaStream = none ∧
      (stopRecording s).peerConnection = none ∧ (stopRecording s).audioElement = none ∧
      (stopRecording s).isRecording = false) := by
  refine ⟨?_, ?_, ?_⟩
  · intro s outcome h
    unfold startRecording
    rw [if_pos h]
  · intro s h
    unfold stopRecording
    rw [if_pos h]
  · intro s h
    unfold stopRecording
    rw [if_neg (by rw [h]; exact Bool.noConfusion)]
    exact ⟨rfl, rfl, rfl, rfl, rfl⟩

/-- Witness for C7 on a concrete recording state. -/
theorem voiceService_single_session_witness :
    (VoiceState.mk (some ()) (some ()) (some ()) (some ()) true (some ())).isRecording = true ∧
      (stopRecording
        (VoiceState.mk (some ()) (some ()) (some ()) (some ()) true (some ()))).isRecording
        = false :=
  ⟨rfl, (voiceService_single_session.2.2
    (VoiceState.mk (some ()) (some ()) (some ()) (some ()) true (some ())) rfl).2.2.2.2⟩

/-! ### src/lib/three/objectTrackingCamera.ts -/

/-- Default camera distance from target when not tracking. -/
noncomputable def DEFAULT_OFFSET : ℝ := 20

/-- Multiplier of object size for the focus offset. -/
noncomputable def FOCUS_OFFSET_SCALE : ℝ := 3

/-- Smoothing factor for camera reset. -/
noncomputable def resetLerpAlpha : ℝ := 0.01

/-- Threshold at which a camera reset counts as finished. -/
noncomputable def RESET_FINISH_THRESHOLD : ℝ := 0.01

/-- Module-level state of objectTrackingCamera.ts.  The tracked Object3D is
    modelled by its world position, the camera by its position and the
    OrbitControls by their target; a none camera or controls field means the
    module is not initialized. -/
structure TrackState where
  trackedObject : Option Vec3
  cameraPos : Option Vec3
  controlsTarget : Option Vec3
  initialCameraPos : Option Vec3
  initialCameraTarget : Option Vec3
  offset : ℝ
  lerpAlpha : ℝ
  resetTargetPos : Option Vec3
  resetTargetFocus : Option Vec3

/-- Embedding of initObjectTrackingCamera: stores camera and controls, clones
    the initial pose for reset, and records offset and smoothing factor.  The
    start listener it registers is modelled separately. -/
def initObjectTrackingCamera (s : TrackState) (camPos ctrlsTarget : Vec3)
    (defaultOffset objectLerpAlpha : ℝ) : TrackState :=
  { s with
    cameraPos := some camPos, controlsTarget := some ctrlsTarget,
    initialCameraPos := some camPos, initialCameraTarget := some ctrlsTarget,
    offset := defaultOffset, lerpAlpha := objectLerpAlpha }

/-- Embedding of the controls start listener: any reset in progress is
    cancelled on user interaction. -/
def controlsStartListener (s : TrackState) : TrackState :=
  { s with resetTargetPos := none, resetTargetFocus := none }

/-- Embedding of focusOnObject: starts tracking, cancels any reset in
    progress and sets the offset proportional to object size unless a custom
    offset is given. -/
noncomputable def focusOnObject (s : TrackState) (obj : Vec3) (size : ℝ)
    (customOffset : Option ℝ) : TrackState :=
  { s with
    trackedObject := some obj, resetTargetPos := none, resetTargetFocus := none,
    offset := customOffset.getD (size * FOCUS_OFFSET_SCALE) }

/-- Embedding of clearTracking. -/
def clearTracking (s : TrackState) : TrackState :=
  { s with trackedObject := none }

/-- Embedding of resetCamera: stops tracking and, when the initial pose was
    saved, starts a smooth reset towards it. -/
def resetCamera (s : TrackState) : TrackState :=
  let s1 := { s with trackedObject := none }
  match s.initialCameraPos, s.initialCameraTarget with
  | some p, some t => { s1 with resetTargetPos := some p, resetTargetFocus := some t }
  | _, _ => s1

/-- Embedding of updateTrackingCamera: returns the updated module state and
    the boolean the function returns.  Camera orientation (lookAt) is not part
    of the modelled state. -/
noncomputable def updateTrackingCamera (s : TrackState) : TrackState × Bool :=
  match s.cameraPos, s.controlsTarget with
  | some camPos, some target =>
    match s.trackedObject with
    | some worldTarget =>
        let newTarget := v3lerp target worldTarget s.lerpAlpha
        let dir := normalize3 (camPos - newTarget)
        let desiredPos := newTarget + s.offset • dir
        let newCamPos := v3lerp camPos desiredPos s.lerpAlpha
        ({ s with controlsTarget := some newTarget, cameraPos := some newCamPos }, true)
    | none =>
      match s.resetTargetPos, s.resetTargetFocus with
      | some resetPos, some resetFocus =>
          let newTarget := v3lerp target resetFocus resetLerpAlpha
          let newCamPos := v3lerp camPos resetPos resetLerpAlpha
          let s2 := { s with controlsTarget := some newTarget, cameraPos := some newCamPos }
          if dist3 newCamPos resetPos < RESET_FINISH_THRESHOLD ∧
              dist3 newTarget resetFocus < RESET_FINISH_THRESHOLD then
            ({ s2 with resetTargetPos := none, resetTargetFocus := none }, false)
          else (s2, false)
      | _, _ => (s, false)
  | _, _ => (s, false)

/-- Invariant of the object-tracking module: tracking and reset are never
    simultaneously active. -/
def trackInv (s : TrackState) : Prop :=
  s.trackedObject ≠ none → s.resetTargetPos = none ∧ s.resetTargetFocus = none

/-- C8: every operation of the object-tracking camera module preserves the
    invariant that a non-null trackedObject forces both reset targets to be
    null, and updateTrackingCamera returns true exactly when the module is
    initialized and a tracked object is set. -/
theorem objectTrackingCamera_spec :
    (∀ s camPos ctrlsTarget d a, trackInv s →
      trackInv (initObjectTrackingCamera s camPos ctrlsTarget d a)) ∧
    (∀ s obj size customOffset, trackInv (focusOnObject s obj size customOffset)) ∧
    (∀ s, trackInv s → trackInv (clearTracking s)) ∧
    (∀ s, trackInv (resetCamera s)) ∧
    (∀ s, trackInv (controlsStartListener s)) ∧
    (∀ s, trackInv s → trackInv (updateTrackingCamera s).1) ∧
    (∀ s, (updateTrackingCamera s).2 = true ↔
      s.cameraPos ≠ none ∧ s.controlsTarget ≠ none ∧ s.trackedObject ≠ none) := by
  refine ⟨?_, ?_, ?_, ?_, ?_, ?_, ?_⟩
  · intro s camPos ctrlsTarget d a h
    exact h
  · intro s obj size customOffset
    intro _
    exact ⟨rfl, rfl⟩
  · intro s h
    intro hne
    exact absurd rfl hne
  · intro s
    unfold resetCamera
    rcases s.initialCameraPos with _ | p <;> rcases s.initialCameraTarget with _ | t <;>
      intro hne <;> exact absurd rfl hne
  · intro s
    intro _
    exact ⟨rfl, rfl⟩
  · intro s h
    unfold updateTrackingCamera
    rcases hc : s.cameraPos with _ | camPos
    · exact h
    · rcases ht : s.controlsTarget with _ | target
      · exact h
      · rcases hobj : s.trackedObject with _ | worldTarget
        · rcases hr : s.resetTargetPos with _ | resetPos
          · exact h
          · rcases hf : s.resetTargetFocus with _ | resetFocus
            · exact h
            · dsimp only
              split_ifs
              · intro hne
                exact absurd rfl hne
              · intro hne
                exact absurd rfl hne
        · dsimp only
          intro _
          exact h (by rw [hobj]; exact Option.noConfusion)
  · intro s
    unfold updateTrackingCamera
    rcases hc : s.cameraPos with _ | camPos
    · simp
    · rcases ht : s.controlsTarget with _ | target
      · simp
      · rcases hobj : s.trackedObject with _ | worldTarget
        · rcases hr : s.resetTargetPos with _ | resetPos
          · simp [hobj]
          · rcases hf : s.resetTargetFocus with _ | resetFocus
            · simp [hobj]
            · dsimp only
              split_ifs <;> simp [hobj]
        · simp

/-- Witness for C8 on a concrete uninitialized state. -/
theorem objectTrackingCamera_spec_witness :
    trackInv (TrackState.mk none none none none none 0 0 none none) ∧
      trackInv (updateTrackingCamera
        (TrackState.mk none none none none none 0 0 none none)).1 :=
  have h0 : trackInv (TrackState.mk none none none none none 0 0 none none) :=
    fun hne => absurd rfl hne
  ⟨h0, objectTrackingCamera_spec.2.2.2.2.2.1
    (TrackState.mk none none none none none 0 0 none none) h0⟩

/-! ### Cross-engine view handoff, CesiumViewer visible effect -/

/-- View context captured from the Three.js scene when the Earth transition
    completes (EarthCesiumIntegration startTransition). -/
structure ThreeJsViewContext where
  cameraPosition : Vec3
  cameraUp : Vec3
  earthCenterTjs : Vec3
  earthRadiusTjs : ℝ

/-- Cesium.Ellipsoid.WGS84.maximumRadius in meters. -/
noncomputable def cesiumEarthRadius : ℝ := 6378137

/-- Adjustable distance multiplier applied to the converted camera offset. -/
noncomputable def distanceMultiplier : ℝ := 1.8

/-- Initial Cesium camera view set by the CesiumViewer visible effect:
    position, up and direction in Earth-centered-fixed coordinates. -/
structure CesiumCameraView where
  position : Vec3
  up : Vec3
  direction : Vec3

/-- Embedding of the Three.js-to-Cesium view matching block of the
    CesiumViewer visible effect: the offset of the camera from the Earth
    center is scaled by the radius ratio with the Y and Z axes swapped and
    stretched by the distance multiplier, the up vector is axis-swapped and
    normalized, and the direction points at the Earth center. -/
noncomputable def cesiumViewFromThreeJs (ctx : ThreeJsViewContext) : CesiumCameraView :=
  let tjsOffsetFromEarthCenter := ctx.cameraPosition - ctx.earthCenterTjs
  let scale := cesiumEarthRadius / ctx.earthRadiusTjs
  let converted : Vec3 :=
    ⟨tjsOffsetFromEarthCenter.x * scale, tjsOffsetFromEarthCenter.z * scale,
      tjsOffsetFromEarthCenter.y * scale⟩
  let cesiumCameraPositionECF := distanceMultiplier • converted
  let cesiumCameraUpECF := normalize3 ⟨ctx.cameraUp.x, ctx.cameraUp.z, ctx.cameraUp.y⟩
  let directionToEarthCenter := normalize3 ((⟨0, 0, 0⟩ : Vec3) - cesiumCameraPositionECF)
  ⟨cesiumCameraPositionECF, cesiumCameraUpECF, directionToEarthCenter⟩

theorem norm3_swap (v : Vec3) : norm3 ⟨v.x, v.z, v.y⟩ = norm3 v := by
  unfold norm3
  congr 1
  ring

theorem normalize3_of_norm_one (v : Vec3) (h : norm3 v = 1) : normalize3 v = v := by
  unfold normalize3
  rw [h]
  ext <;> simp

/-- C1: the initial Cesium view is a function of the captured Three.js view
    context, and for a fixed captured Earth center and radius two distinct
    captured camera poses (position and unit up vector) always produce
    distinct initial Cesium views. -/
theorem cesiumHandoff_matches_pose (c1 c2 : ThreeJsViewContext)
    (hcenter : c1.earthCenterTjs = c2.earthCenterTjs)
    (hradius : c1.earthRadiusTjs = c2.earthRadiusTjs)
    (hrpos : 0 < c1.earthRadiusTjs)
    (hu1 : norm3 c1.cameraUp = 1) (hu2 : norm3 c2.cameraUp = 1)
    (heq : cesiumViewFromThreeJs c1 = cesiumViewFromThreeJs c2) :
    c1.cameraPosition = c2.cameraPosition ∧ c1.cameraUp = c2.cameraUp := by
  have hscale : (0 : ℝ) < cesiumEarthRadius / c1.earthRadiusTjs := by
    apply div_pos ?_ hrpos
    unfold cesiumEarthRadius
    norm_num
  set k := cesiumEarthRadius / c1.earthRadiusTjs with hk
  have hk2 : cesiumEarthRadius / c2.earthRadiusTjs = k := by rw [hk, hradius]
  have hposeq := congrArg CesiumCameraView.position heq
  have hupeq := congrArg CesiumCameraView.up heq
  unfold cesiumViewFromThreeJs at hposeq hupeq
  simp only [Vec3.sub_def, Vec3.smul_def] at hposeq hupeq
  rw [hk2] at hposeq
  have hmulinj : ∀ a b : ℝ, distanceMultiplier * (a * k) = distanceMultiplier * (b * k) →
      a = b := by
    intro a b h
    have hd : distanceMultiplier ≠ 0 := by
      unfold distanceMultiplier
      norm_num
    have h2 := mul_left_cancel₀ hd h
    exact mul_right_cancel₀ (ne_of_gt hscale) h2
  constructor
  · have hx := congrArg Vec3.x hposeq
    have hy := congrArg Vec3.y hposeq
    have hz := congrArg Vec3.z hposeq
    dsimp only at hx hy hz
    have ex := hmulinj _ _ hx
    have ey := hmulinj _ _ hz
    have ez := hmulinj _ _ hy
    rw [hcenter] at ex ey ez
    ext
    · linarith
    · linarith
    · linarith
  · have hsw1 : norm3 ⟨c1.cameraUp.x, c1.cameraUp.z, c1.cameraUp.y⟩ = 1 := by
      rw [norm3_swap]
      exact hu1
    have hsw2 : norm3 ⟨c2.cameraUp.x, c2.cameraUp.z, c2.cameraUp.y⟩ = 1 := by
      rw [norm3_swap]
      exact hu2
    rw [normalize3_of_norm_one _ hsw1, normalize3_of_norm_one _ hsw2] at hupeq
    have ux := congrArg Vec3.x hupeq
    have uy := congrArg Vec3.y hupeq
    have uz := congrArg Vec3.z hupeq
    dsimp only at ux uy uz
    ext
    · exact ux
    · exact uz
    · exact uy

/-- Witness for C1 on a concrete captured context. -/
theorem cesiumHandoff_matches_pose_witness :
    norm3 ⟨0, 1, 0⟩ = 1 ∧ (0 : ℝ) < 1 ∧
      (ThreeJsViewContext.mk ⟨3, 0, 0⟩ ⟨0, 1, 0⟩ ⟨0, 0, 0⟩ 1).cameraPosition =
        (ThreeJsViewContext.mk ⟨3, 0, 0⟩ ⟨0, 1, 0⟩ ⟨0, 0, 0⟩ 1).cameraPosition := by
  have hn : norm3 (⟨0, 1, 0⟩ : Vec3) = 1 := by
    unfold norm3
    norm_num
  exact ⟨hn, by norm_num,
    (cesiumHandoff_matches_pose (ThreeJsViewContext.mk ⟨3, 0, 0⟩ ⟨0, 1, 0⟩ ⟨0, 0, 0⟩ 1)
      (ThreeJsViewContext.mk ⟨3, 0, 0⟩ ⟨0, 1, 0⟩ ⟨0, 0, 0⟩ 1) rfl rfl (by norm_num)
      hn hn rfl).1⟩

/-! ### src/app/api/geocode/route.ts -/

/-- Result entry returned by the Nominatim geocoding service; only the fields
    the route logic reads are modelled, with importance as an optional
    rational number. -/
structure NominatimResult where
  place_id : ℤ
  display_name : String
  lat : String
  lon : String
  importance : Option ℚ

/-- The comparator key (r.importance || 0) used by the sort in the route. -/
def importanceOr0 (r : NominatimResult) : ℚ := r.importance.getD 0

/-- Boolean comparator modelling the JavaScript sort comparator
    (b.importance || 0) - (a.importance || 0): a comes before b when the
    importance of b does not exceed the importance of a. -/
def importanceLe (a b : NominatimResult) : Bool :=
  decide (importanceOr0 b ≤ importanceOr0 a)

/-- Sorting of the upstream data by descending importance. -/
def sortByImportanceDesc (data : List NominatimResult) : List NominatimResult :=
  data.mergeSort importanceLe

/-- A list is sorted by descending importance. -/
def sortedDesc (l : List NominatimResult) : Prop :=
  l.Pairwise (fun a b => importanceOr0 b ≤ importanceOr0 a)

theorem importanceLe_trans :
    ∀ a b c, importanceLe a b → importanceLe b c → importanceLe a c := by
  intro a b c h1 h2
  unfold importanceLe at h1 h2 ⊢
  simp only [decide_eq_true_eq] at h1 h2 ⊢
  exact le_trans h2 h1

theorem importanceLe_total : ∀ a b, importanceLe a b || importanceLe b a := by
  intro a b
  unfold importanceLe
  rcases le_total (importanceOr0 b) (importanceOr0 a) with h | h <;> simp [h]

theorem sortedDesc_sortByImportanceDesc (data : List NominatimResult) :
    sortedDesc (sortByImportanceDesc data) := by
  have h := List.sorted_mergeSort importanceLe_trans importanceLe_total data
  unfold sortedDesc sortByImportanceDesc
  refine h.imp ?_
  intro a b hab
  unfold importanceLe at hab
  simpa using hab

/-- Per-key rate limiting record stored in the in-memory map. -/
structure RateRecord where
  count : ℕ
  lastReset : ℤ

/-- One-minute rate-limit window in milliseconds. -/
def RATE_LIMIT_WINDOW : ℤ := 60000

/-- Maximum requests per window per client key. -/
def RATE_LIMIT_MAX_REQUESTS : ℕ := 30

/-- Cache time-to-live, five minutes in milliseconds. -/
def CACHE_TTL : ℤ := 300000

/-- Embedding of isRateLimited: returns the boolean and the updated map
    (the source mutates the shared rateLimitMap in place). -/
def isRateLimited (rateLimitMap : String → Option RateRecord) (key : String) (now : ℤ) :
    Bool × (String → Option RateRecord) :=
  match rateLimitMap key with
  | none => (false, fun k => if k = key then some ⟨1, now⟩ else rateLimitMap k)
  | some record =>
    if now - record.lastReset > RATE_LIMIT_WINDOW then
      (false, fun k => if k = key then some ⟨1, now⟩ else rateLimitMap k)
    else if record.count ≥ RATE_LIMIT_MAX_REQUESTS then
      (true, rateLimitMap)
    else
      (false, fun k => if k = key then some ⟨record.count + 1, record.lastReset⟩
        else rateLimitMap k)

/-- Cached search results with their storage timestamp. -/
structure CacheEntry where
  data : List NominatimResult
  timestamp : ℤ

/-- Body of a route response: either a JSON error message or a result list. -/
inductive GetBody where
  | error (msg : String)
  | results (data : List NominatimResult)

/-- Route response: HTTP status and body. -/
structure GetResponse where
  status : ℕ
  body : GetBody

/-- Cache key template of the route. -/
def cacheKeyOf (query : String) (limitParam acceptLanguage : Option String) : String :=
  query ++ ("-") ++ (limitParam.getD ("8")) ++ ("-") ++ (acceptLanguage.getD ("en"))

/-- Embedding of the GET handler of the geocode route.  The request is given
    by the optional q, limit and accept-language parameters and the client
    rate-limit key; now is the current time; upstream is the outcome of the
    Nominatim fetch, none meaning the fetch or its response failed.  Returns
    the response together with the updated rate-limit map and cache. -/
def handleGET (q limitParam acceptLanguage : Option String) (key : String) (now : ℤ)
    (rateLimitMap : String → Option RateRecord) (searchCache : String → Option CacheEntry)
    (upstream : Option (List NominatimResult)) :
    GetResponse × (String → Option RateRecord) × (String → Option CacheEntry) :=
  match q with
  | none => (⟨400, .error ("Query parameter is required")⟩, rateLimitMap, searchCache)
  | some query =>
    let rl := isRateLimited rateLimitMap key now
    if rl.1 then
      (⟨429, .error ("Too many requests. Please try again later.")⟩, rl.2, searchCache)
    else
      let cacheKey := cacheKeyOf query limitParam acceptLanguage
      let fetchUpstream := fun (_ : Unit) =>
        match upstream with
        | none => (⟨503, .error ("Geocoding service temporarily unavailable")⟩, rl.2,
            searchCache)
        | some data =>
          let sortedData := sortByImportanceDesc data
          (⟨200, .results sortedData⟩, rl.2,
            fun k => if k = cacheKey then some ⟨sortedData, now⟩ else searchCache k)
      match searchCache cacheKey with
      | some cached =>
        if now - cached.timestamp < CACHE_TTL then
          (⟨200, .results cached.data⟩, rl.2, searchCache)
        else fetchUpstream ()
      | none => fetchUpstream ()

/-- The cache holds a fresh entry for the given key. -/
def freshCacheHit (searchCache : String → Option CacheEntry) (cacheKey : String)
    (now : ℤ) : Prop :=
  ∃ e, searchCache cacheKey = some e ∧ now - e.timestamp < CACHE_TTL

/-- Every cached entry holds a list sorted by descending importance. -/
def cacheWellFormed (searchCache : String → Option CacheEntry) : Prop :=
  ∀ k e, searchCache k = some e → sortedDesc e.data

/-- Sequence of isRateLimited calls for one key at the given times, threading
    the map through; returns the limited flags and the final map. -/
def serveSeq (key : String) (ts : List ℤ) (m : String → Option RateRecord) :
    List Bool × (String → Option RateRecord) :=
  match ts with
  | [] => ([], m)
  | t :: rest =>
      ((isRateLimited m key t).1 :: (serveSeq key rest (isRateLimited m key t).2).1,
       (serveSeq key rest (isRateLimited m key t).2).2)

theorem isRateLimited_fresh (m : String → Option RateRecord) (key : String) (now : ℤ)
    (h : m key = none) :
    isRateLimited m key now = (false, fun k => if k = key then some ⟨1, now⟩ else m k) := by
  unfold isRateLimited
  rw [h]

theorem isRateLimited_under (m : String → Option RateRecord) (key : String) (now : ℤ)
    (c : ℕ) (r : ℤ) (hm : m key = some ⟨c, r⟩) (hwin : now - r ≤ RATE_LIMIT_WINDOW)
    (hc : c < RATE_LIMIT_MAX_REQUESTS) :
    isRateLimited m key now =
      (false, fun k => if k = key then some ⟨c + 1, r⟩ else m k) := by
  unfold isRateLimited
  rw [hm]
  dsimp only
  rw [if_neg (not_lt.mpr hwin), if_neg (not_le.mpr hc)]

theorem isRateLimited_maxed (m : String → Option RateRecord) (key : String) (now : ℤ)
    (c : ℕ) (r : ℤ) (hm : m key = some ⟨c, r⟩) (hwin : now - r ≤ RATE_LIMIT_WINDOW)
    (hc : RATE_LIMIT_MAX_REQUESTS ≤ c) :
    isRateLimited m key now = (true, m) := by
  unfold isRateLimited
  rw [hm]
  dsimp only
  rw [if_neg (not_lt.mpr hwin), if_pos hc]

theorem serveSeq_under_limit (key : String) (ts : List ℤ) :
    ∀ (c : ℕ) (r : ℤ) (m : String → Option RateRecord), m key = some ⟨c, r⟩ →
      (∀ t ∈ ts, t - r ≤ RATE_LIMIT_WINDOW) → c + ts.length ≤ RATE_LIMIT_MAX_REQUESTS →
      (serveSeq key ts m).1 = List.replicate ts.length false ∧
      (serveSeq key ts m).2 key = some ⟨c + ts.length, r⟩ := by
  induction ts with
  | nil =>
    intro c r m hm hts hlen
    exact ⟨rfl, by simpa using hm⟩
  | cons t rest ih =>
    intro c r m hm hts hlen
    have hwin : t - r ≤ RATE_LIMIT_WINDOW := hts t (List.mem_cons_self t rest)
    have hc : c < RATE_LIMIT_MAX_REQUESTS := by
      simp only [List.length_cons] at hlen
      omega
    have hrl := isRateLimited_under m key t c r hm hwin hc
    have hm2 : (fun k => if k = key then some (RateRecord.mk (c + 1) r) else m k) key =
        some ⟨c + 1, r⟩ := by simp
    have hrest := ih (c + 1) r
      (fun k => if k = key then some (RateRecord.mk (c + 1) r) else m k) hm2
      (fun u hu => hts u (List.mem_cons_of_mem t hu))
      (by simp only [List.length_cons] at hlen; omega)
    constructor
    · show ((isRateLimited m key t).1 :: (serveSeq key rest (isRateLimited m key t).2).1) =
        List.replicate (rest.length + 1) false

      rw [hrl]
      dsimp only
      rw [hrest.1, List.replicate_succ]
    · show (serveSeq key rest (isRateLimited m key t).2).2 key = _
      rw [hrl]
      dsimp only
      rw [hrest.2]
      have h3 : c + 1 + rest.length = c + (rest.length + 1) := by omega
      simp [List.length_cons, h3]

theorem serveSeq_append (key : String) (as bs : List ℤ) :
    ∀ m, serveSeq key (as ++ bs) m =
      ((serveSeq key as m).1 ++ (serveSeq key bs (serveSeq key as m).2).1,
       (serveSeq key bs (serveSeq key as m).2).2) := by
  induction as with
  | nil => intro m; rfl
  | cons a as ih =>
    intro m
    show ((isRateLimited m key a).1 :: (serveSeq key (as ++ bs) (isRateLimited m key a).2).1,
        (serveSeq key (as ++ bs) (isRateLimited m key a).2).2) = _
    rw [ih]
    rfl

/-- C10: the geocode GET handler returns an error status exactly for the
    three error conditions with their codes: 400 when q is missing, 429 when
    the client key is rate limited, 503 when the upstream fetch fails on a
    cache miss; otherwise 200 with results sorted by descending importance;
    and within one rate-limit window a fresh key serves exactly 30 requests
    and rejects the 31st. -/
theorem geocode_GET_spec (q limitParam acceptLanguage : Option String) (key : String)
    (now : ℤ) (rateLimitMap : String → Option RateRecord)
    (searchCache : String → Option CacheEntry) (upstream : Option (List NominatimResult))
    (out : GetResponse × (String → Option RateRecord) × (String → Option CacheEntry))
    (hout : out = handleGET q limitParam acceptLanguage key now rateLimitMap searchCache
      upstream) :
    (out.1.status = 400 ∨ out.1.status = 429 ∨ out.1.status = 503 ∨ out.1.status = 200) ∧
    (out.1.status = 400 ↔ q = none) ∧
    (out.1.status = 429 ↔ q ≠ none ∧ (isRateLimited rateLimitMap key now).1 = true) ∧
    (out.1.status = 503 ↔ ∃ query, q = some query ∧
      (isRateLimited rateLimitMap key now).1 = false ∧
      ¬ freshCacheHit searchCache (cacheKeyOf query limitParam acceptLanguage) now ∧
      upstream = none) ∧
    (cacheWellFormed searchCache →
      (out.1.status = 200 → ∃ data, out.1.body = GetBody.results data ∧ sortedDesc data) ∧
      cacheWellFormed out.2.2) ∧
    (∀ (key2 : String) (t0 t1 : ℤ) (mid : List ℤ) (tfin : ℤ)
        (m : String → Option RateRecord),
      m key2 = none → mid.length = 29 →
      t0 ≤ t1 → t1 ≤ t0 + RATE_LIMIT_WINDOW →
      (∀ t ∈ mid, t0 ≤ t ∧ t ≤ t0 + RATE_LIMIT_WINDOW) →
      t0 ≤ tfin → tfin ≤ t0 + RATE_LIMIT_WINDOW →
      (serveSeq key2 (t1 :: (mid ++ [tfin])) m).1 = List.replicate 30 false ++ [true]) := by
  have hwindow : ∀ (key2 : String) (t0 t1 : ℤ) (mid : List ℤ) (tfin : ℤ)
      (m : String → Option RateRecord),
      m key2 = none → mid.length = 29 →
      t0 ≤ t1 → t1 ≤ t0 + RATE_LIMIT_WINDOW →
      (∀ t ∈ mid, t0 ≤ t ∧ t ≤ t0 + RATE_LIMIT_WINDOW) →
      t0 ≤ tfin → tfin ≤ t0 + RATE_LIMIT_WINDOW →
      (serveSeq key2 (t1 :: (mid ++ [tfin])) m).1 = List.replicate 30 false ++ [true] := by
    intro key2 t0 t1 mid tfin m hm0 hlen ht1a ht1b hmid htfa htfb
    have h1 := isRateLimited_fresh m key2 t1 hm0
    have hm1 : (fun k => if k = key2 then some (RateRecord.mk 1 t1) else m k) key2 =
        some ⟨1, t1⟩ := by simp
    have hmidlim := serveSeq_under_limit key2 mid 1 t1
      (fun k => if k = key2 then some (RateRecord.mk 1 t1) else m k) hm1
      (fun u hu => by have := hmid u hu; omega)
      (by rw [hlen]; unfold RATE_LIMIT_MAX_REQUESTS; omega)
    have h3 := hmidlim.2
    rw [hlen] at h3
    norm_num at h3
    have hmax := isRateLimited_maxed _ key2 tfin 30 t1 h3 (by omega)
      (by unfold RATE_LIMIT_MAX_REQUESTS; omega)
    show ((isRateLimited m key2 t1).1 ::
      (serveSeq key2 (mid ++ [tfin]) (isRateLimited m key2 t1).2).1) = _
    rw [h1]
    dsimp only
    rw [serveSeq_append]
    dsimp only
    rw [hmidlim.1, hlen]
    show (false :: (List.replicate 29 false ++
      ((isRateLimited _ key2 tfin).1 :: (serveSeq key2 []
        (isRateLimited _ key2 tfin).2).1))) = _
    rw [hmax]
    dsimp only [serveSeq]
    decide
  subst hout
  rcases q with _ | query
  · unfold handleGET
    refine ⟨by norm_num, by simp, ?_, ?_, ?_, hwindow⟩
    · constructor
      · intro h
        norm_num at h
      · rintro ⟨h, -⟩
        exact absurd rfl h
    · constructor
      · intro h
        norm_num at h
      · rintro ⟨query, hq, -⟩
        exact Option.noConfusion hq
    · intro hwf
      exact ⟨fun h200 => by norm_num at h200, hwf⟩
  · unfold handleGET
    dsimp only
    cases hb : (isRateLimited rateLimitMap key now).1
    · rw [if_neg (show ¬ false = true from fun h => Bool.noConfusion h)]
      rcases hc : searchCache (cacheKeyOf query limitParam acceptLanguage) with _ | cached
      · dsimp only
        rcases upstream with _ | data
        · refine ⟨by norm_num, by simp, ?_, ?_, ?_, hwindow⟩
          · constructor
            · intro h
              norm_num at h
            · rintro ⟨-, hb2⟩
              exact Bool.noConfusion hb2
          · constructor
            · intro h
              refine ⟨query, rfl, rfl, ?_, rfl⟩
              rintro ⟨e, he, -⟩
              rw [hc] at he
              exact Option.noConfusion he
            · intro h
              rfl
          · intro hwf
            exact ⟨fun h200 => by norm_num at h200, hwf⟩
        · refine ⟨by norm_num, by simp, ?_, ?_, ?_, hwindow⟩
          · constructor
            · intro h
              norm_num at h
            · rintro ⟨-, hb2⟩
              exact Bool.noConfusion hb2
          · constructor
            · intro h
              norm_num at h
            · rintro ⟨query2, -, -, -, hup⟩
              exact Option.noConfusion hup
          · intro hwf
            constructor
            · intro h200
              exact ⟨sortByImportanceDesc data, rfl, sortedDesc_sortByImportanceDesc data⟩
            · intro k e he
              dsimp only at he
              by_cases hk : k = cacheKeyOf query limitParam acceptLanguage
              · rw [if_pos hk] at he
                have he2 : CacheEntry.mk (sortByImportanceDesc data) now = e :=
                  Option.some.inj he
                rw [← he2]
                exact sortedDesc_sortByImportanceDesc data
              · rw [if_neg hk] at he
                exact hwf k e he
      · dsimp only
        by_cases ht : now - cached.timestamp < CACHE_TTL
        · rw [if_pos ht]
          refine ⟨by norm_num, by simp, ?_, ?_, ?_, hwindow⟩
          · constructor
            · intro h
              norm_num at h
            · rintro ⟨-, hb2⟩
              exact Bool.noConfusion hb2
          · constructor
            · intro h
              norm_num at h
            · rintro ⟨query2, hq2, -, hnf, -⟩
              have hq3 : query = query2 := Option.some.inj hq2
              subst hq3
              exact (hnf ⟨cached, hc, ht⟩).elim
          · intro hwf
            exact ⟨fun h200 => ⟨cached.data, rfl, hwf _ _ hc⟩, hwf⟩
        · rw [if_neg ht]
          rcases upstream with _ | data
          · refine ⟨by norm_num, by simp, ?_, ?_, ?_, hwindow⟩
            · constructor
              · intro h
                norm_num at h
              · rintro ⟨-, hb2⟩
                exact Bool.noConfusion hb2
            · constructor
              · intro h
                refine ⟨query, rfl, rfl, ?_, rfl⟩
                rintro ⟨e, he, hfr⟩
                rw [hc] at he
                have he2 : cached = e := Option.some.inj he
                rw [← he2] at hfr
                exact ht hfr
              · intro h
                rfl
            · intro hwf
              exact ⟨fun h200 => by norm_num at h200, hwf⟩
          · refine ⟨by norm_num, by simp, ?_, ?_, ?_, hwindow⟩
            · constructor
              · intro h
                norm_num at h
              · rintro ⟨-, hb2⟩
                exact Bool.noConfusion hb2
            · constructor
              · intro h
                norm_num at h
              · rintro ⟨query2, -, -, -, hup⟩
                exact Option.noConfusion hup
            · intro hwf
              constructor
              · intro h200
                exact ⟨sortByImportanceDesc data, rfl, sortedDesc_sortByImportanceDesc data⟩
              · intro k e he
                dsimp only at he
                by_cases hk : k = cacheKeyOf query limitParam acceptLanguage
                · rw [if_pos hk] at he
                  have he2 : CacheEntry.mk (sortByImportanceDesc data) now = e :=
                    Option.some.inj he
                  rw [← he2]
                  exact sortedDesc_sortByImportanceDesc data
                · rw [if_neg hk] at he
                  exact hwf k e he
    · rw [if_pos (show true = true from rfl)]
      refine ⟨by norm_num, by simp, ?_, ?_, ?_, hwindow⟩
      · constructor
        · intro h
          exact ⟨fun hq => Option.noConfusion hq, rfl⟩
        · intro h
          rfl
      · constructor
        · intro h
          norm_num at h
        · rintro ⟨query2, -, hb2, -⟩
          exact Bool.noConfusion hb2
      · intro hwf
        exact ⟨fun h200 => by norm_num at h200, hwf⟩

/-- Witness for C10: a request with a missing q parameter yields status 400. -/
theorem geocode_GET_spec_witness :
    ((handleGET none none none (String.mk []) 0 (fun _ => none) (fun _ => none)
      none).1.status = 400 ↔ (none : Option String) = none) :=
  (geocode_GET_spec none none none (String.mk []) 0 (fun _ => none) (fun _ => none) none
    _ rfl).2.1

end Solar5d
